import Mathlib

/-!
Verification of the worker-process lifecycle orchestrator implemented in
`app.py` / `models.py`: the `Agents` registry, the port allocator
`find_available_port`, and the lifecycle endpoints `create_agent`,
`start_agent` and `stop_agent`.  Stateful Python code is embedded as pure
Lean functions over an explicit registry (association list standing for the
`Agents` table) and an `Env` record carrying the facts about the outside
world (OS process table, OS port bindings, filesystem, spawned children)
that a single request observes.
-/

namespace AgentsApp

/-- Lifecycle status stored in the `status` column of the `Agents` table
(`models.py`): one of `created`, `running`, `stopped`, `error`. -/
inductive Status where
  | created
  | running
  | stopped
  | error
deriving DecidableEq

/-- The fields of an `Agents` row that the lifecycle operations of `app.py`
read or write: `status`, `port`, `pid` and `file_path` (the remaining
columns — name, description, permissions, timestamps — are never consulted
by the orchestration logic). -/
structure Agent where
  status : Status
  port : Option Nat
  pid : Option Nat
  filePath : String
deriving DecidableEq

/-- The `Agents` table, as an association list from `agentid` to the row. -/
abbrev Registry := List (String × Agent)

/-- `Agents.query.filter_by(agentid=agent_id).first()`. -/
def lookupAgent (reg : Registry) (id : String) : Option Agent :=
  (reg.find? (fun e => e.1 = id)).map Prod.snd

/-- Committing mutated fields of the ORM row whose key is `id`
(`db.session.commit()` after assignments to `agent.status` etc.). -/
def setAgent (reg : Registry) (id : String) (a : Agent) : Registry :=
  reg.map (fun e => if e.1 = id then (id, a) else e)

/-- Python truthiness of the optional integer `agent.pid` as used in
`if agent.status == 'running' and agent.pid:` — `None` and `0` are falsy. -/
def truthy (o : Option Nat) : Bool := o.getD 0 != 0

/-- Ports one row contributes to `used_ports` in `find_available_port`:
its `port` when `status == 'running'` and `port` is non-NULL. -/
def contrib (a : Agent) : List Nat :=
  if a.status = .running then a.port.toList else []

/-- The `used_ports` set of `find_available_port` (`app.py` lines 48-49):
ports of all rows with `status == 'running'` and `port.isnot(None)`. -/
def runningPorts (reg : Registry) : List Nat :=
  reg.flatMap (fun e => contrib e.2)

/-- The scan loop of `find_available_port` (`app.py` lines 50-55).  The
number of increments the loop may still make before the candidate passes
65535 is made explicit as `fuel` (at entry, `fuel = 65535 - start_port`):
while the candidate port is in `used_ports` or the OS bind probe
`is_port_in_use` reports it busy, move to the next candidate, raising
`Exception("No available ports found.")` once the candidate would exceed
65535. -/
def findPortAux (used : List Nat) (osBusy : Nat → Bool) (port fuel : Nat) :
    Except String Nat :=
  if port ∈ used ∨ osBusy port = true then
    match fuel with
    | 0 => .error "No available ports found."
    | f + 1 => findPortAux used osBusy (port + 1) f
  else
    .ok port

/-- `find_available_port(start_port)` (`app.py` lines 46-55), taking the
list of ports of `running` rows and the OS bind probe as parameters. -/
def find_available_port (used : List Nat) (osBusy : Nat → Bool)
    (startPort : Nat) : Except String Nat :=
  findPortAux used osBusy startPort (65535 - startPort)

/-- `BASE_AGENT_PORT` (`app.py` line 17). -/
def BASE_AGENT_PORT : Nat := 6000

deriving instance DecidableEq for Except

/-- The facts about the outside world that one lifecycle request observes:
whether `os.kill(pid, 0)` succeeds for a pid, whether the bind probe
`is_port_in_use` reports a port busy, whether `os.path.exists` finds a path,
the pid `subprocess.Popen` assigns to the spawned child, the value of
`process.poll()` after the 2-second grace sleep (`some exitCode` when the
child has already exited), whether the termination block of `stop_agent`
raises an exception other than `ProcessLookupError`/`OSError`, whether the
`Users` row exists, whether generating and writing the agent file succeeds,
whether `db.session.commit()` of the insert succeeds, and whether
`os.remove` of the generated file succeeds. -/
structure Env where
  alive : Nat → Bool
  osBusy : Nat → Bool
  fileExists : String → Bool
  spawnPid : Nat
  earlyExit : Option Int
  stopFails : Bool
  userOk : Bool
  fileWriteOk : Bool
  dbOk : Bool
  removeOk : Bool

/-- Outcome of `start_agent` as surfaced to the HTTP caller. -/
inductive StartOutcome where
  | notFound
  | alreadyRunning (port : Option Nat)
  | fileNotFound
  | portError
  | launchFailed (exitCode : Int)
  | started (port : Nat) (pid : Nat)
deriving DecidableEq

/-- Result of one `start_agent` request: the outcome, the final registry,
the sequence of registry snapshots committed by `db.session.commit()` in
order, the number of `subprocess.Popen` calls made, and the number of
`find_available_port` calls made. -/
structure StartResult where
  outcome : StartOutcome
  reg : Registry
  commits : List Registry
  spawns : Nat
  allocs : Nat
deriving DecidableEq

/-- Assignments `agent.status = st; agent.pid = None; agent.port = None`. -/
def clearAgent (a : Agent) (st : Status) : Agent :=
  { a with status := st, pid := none, port := none }

/-- The body of `start_agent` from the file-existence check onward
(`app.py` lines 207-276): check the agent file exists, allocate a port
starting at `BASE_AGENT_PORT`, spawn the child, sleep the fixed grace
interval and poll it; if it already exited, set the row to `error` with
pid/port cleared and report the failure with the child's exit code;
otherwise commit `running` with the new port and pid. -/
def launchPhase (reg : Registry) (id : String) (a : Agent) (env : Env) :
    StartResult :=
  if env.fileExists a.filePath = false then
    ⟨.fileNotFound, reg, [], 0, 0⟩
  else
    match find_available_port (runningPorts reg) env.osBusy BASE_AGENT_PORT with
    | .error _ => ⟨.portError, reg, [], 0, 1⟩
    | .ok port =>
      match env.earlyExit with
      | some c =>
        let reg' := setAgent reg id (clearAgent a .error)
        ⟨.launchFailed c, reg', [reg'], 1, 1⟩
      | none =>
        let a' := { a with status := .running, pid := some env.spawnPid,
                           port := some port }
        ⟨.started port env.spawnPid, setAgent reg id a', [setAgent reg id a'], 1, 1⟩

/-- `start_agent` after its initial read `Agents.query...first()` returned
the row value `a` (`app.py` lines 193-276).  Kept separate from
`start_agent` because a concurrent request may run on a row value read
before another request's commits: if the row says `running` with a truthy
pid, probe the process with `os.kill(pid, 0)`; when alive, return the
existing port unchanged; when dead, commit the stale-record repair
(`error`, pid/port cleared) and fall through to the launch phase. -/
def startFromRead (a : Agent) (reg : Registry) (id : String) (env : Env) :
    StartResult :=
  if a.status = .running ∧ truthy a.pid = true then
    if env.alive (a.pid.getD 0) = true then
      ⟨.alreadyRunning a.port, reg, [], 0, 0⟩
    else
      let a1 := clearAgent a .error
      let reg1 := setAgent reg id a1
      let r := launchPhase reg1 id a1 env
      ⟨r.outcome, r.reg, reg1 :: r.commits, r.spawns, r.allocs⟩
  else
    launchPhase reg id a env

/-- `POST /agents/<id>/start` (`app.py` lines 186-276). -/
def start_agent (reg : Registry) (id : String) (env : Env) : StartResult :=
  match lookupAgent reg id with
  | none => ⟨.notFound, reg, [], 0, 0⟩
  | some a => startFromRead a reg id env

/-- Outcome of `stop_agent` as surfaced to the HTTP caller. -/
inductive StopOutcome where
  | notFound
  | inconsistentReset
  | notRunning
  | stopError
  | stoppedOk
deriving DecidableEq

/-- Result of one `stop_agent` request: the outcome, the final registry,
the committed snapshots in order, and whether any termination signal was
sent (whether the `os.killpg`/`taskkill` block was reached). -/
structure StopResult where
  outcome : StopOutcome
  reg : Registry
  commits : List Registry
  signaled : Bool
deriving DecidableEq

/-- `POST /agents/<id>/stop` (`app.py` lines 279-342): rows not `running`
with a truthy pid are handled without signalling — a `running` row with a
falsy pid is repaired to `stopped` with `port` cleared (the pid field is
left as it was), any other non-running row is answered with "not running"
and no commit; otherwise the process group is signalled (SIGTERM, liveness
check, SIGKILL escalation, `ProcessLookupError`/`OSError` tolerated); if
that block raises any other exception the row is committed as `error` with
pid/port cleared, else as `stopped` with pid/port cleared. -/
def stop_agent (reg : Registry) (id : String) (env : Env) : StopResult :=
  match lookupAgent reg id with
  | none => ⟨.notFound, reg, [], false⟩
  | some a =>
    if ¬(a.status = .running ∧ truthy a.pid = true) then
      if a.status = .running ∧ truthy a.pid = false then
        let a' := { a with status := .stopped, port := none }
        let reg' := setAgent reg id a'
        ⟨.inconsistentReset, reg', [reg'], false⟩
      else
        ⟨.notRunning, reg, [], false⟩
    else
      if env.stopFails = true then
        let reg' := setAgent reg id (clearAgent a .error)
        ⟨.stopError, reg', [reg'], true⟩
      else
        let reg' := setAgent reg id (clearAgent a .stopped)
        ⟨.stoppedOk, reg', [reg'], true⟩

/-- Outcome of `create_agent` as surfaced to the HTTP caller. -/
inductive CreateOutcome where
  | userNotFound
  | genError
  | dbError
  | createdOk
deriving DecidableEq

/-- Result of one `create_agent` request: the outcome, the final registry,
and the final set of files present (as a list of paths). -/
structure CreateResult where
  outcome : CreateOutcome
  reg : Registry
  fs : List String
deriving DecidableEq

/-- `os.path.join(AGENT_DIR, f"{agent_id}.py")` (`app.py` line 95). -/
def agentFilePath (id : String) : String := "agents/" ++ id ++ ".py"

/-- The row inserted by `create_agent` (`app.py` lines 138-148):
`status='created'`, no port, no pid. -/
def newAgentRecord (id : String) : Agent :=
  { status := .created, port := none, pid := none,
    filePath := agentFilePath id }

/-- `POST /agents` (`app.py` lines 71-167): validate the user exists,
generate and write the agent file, insert the row and commit; if the commit
fails (database error, or duplicate `agentid` violating the unique
constraint) roll back and remove the generated file — the removal itself is
attempted and an `OSError` from `os.remove` is tolerated, leaving the file
behind.  `fs` is the set of files present, as a list of paths. -/
def create_agent (reg : Registry) (fs : List String) (id : String)
    (env : Env) : CreateResult :=
  if env.userOk = false then ⟨.userNotFound, reg, fs⟩
  else if env.fileWriteOk = false then ⟨.genError, reg, fs⟩
  else
    let fp := agentFilePath id
    let fs1 := if fp ∈ fs then fs else fs ++ [fp]
    if env.dbOk = true ∧ lookupAgent reg id = none then
      ⟨.createdOk, reg ++ [(id, newAgentRecord id)], fs1⟩
    else
      ⟨.dbError, reg, if env.removeOk = true then fs1.erase fp else fs1⟩

/-- One lifecycle operation, named by the worker id it targets. -/
inductive Op where
  | create (id : String)
  | start (id : String)
  | stop (id : String)

/-- The registry after executing one operation under one environment. -/
def stepOp (reg : Registry) (oe : Op × Env) : Registry :=
  match oe.1 with
  | .create id => (create_agent reg [] id oe.2).reg
  | .start id => (start_agent reg id oe.2).reg
  | .stop id => (stop_agent reg id oe.2).reg

/-- The registry reached from `reg` by a sequence of operations. -/
def execOps (reg : Registry) (ops : List (Op × Env)) : Registry :=
  ops.foldl stepOp reg

/-- Two concurrent `start_agent` requests for the same id, in the
interleaving where both initial reads happen before either request commits
(a legal schedule: `start_agent` takes no lock and its commits perform no
compare-and-set): request A runs to completion on the row value both read,
then request B runs to completion on the same stale read against A's
resulting registry. -/
def raceStart (reg : Registry) (id : String) (envA envB : Env) :
    StartResult × StartResult :=
  match lookupAgent reg id with
  | none =>
    (⟨.notFound, reg, [], 0, 0⟩, ⟨.notFound, reg, [], 0, 0⟩)
  | some a =>
    let r1 := startFromRead a reg id envA
    let r2 := startFromRead a r1.reg id envB
    (r1, r2)

end AgentsApp

namespace AgentsApp

/-- When the scan loop returns a port, that port is free in both checks, is
at least the starting candidate, lies within the scanned range, and every
smaller candidate from the start onward failed one of the two checks. -/
theorem findPortAux_ok_spec (used : List Nat) (osBusy : Nat → Bool) :
    ∀ fuel port p, findPortAux used osBusy port fuel = .ok p →
      p ∉ used ∧ osBusy p = false ∧ port ≤ p ∧ p ≤ port + fuel ∧
      ∀ q, port ≤ q → q < p → (q ∈ used ∨ osBusy q = true) := by
  intro fuel
  induction fuel with
  | zero =>
    intro port p h
    rw [findPortAux] at h
    by_cases hb : port ∈ used ∨ osBusy port = true
    · rw [if_pos hb] at h
      exact absurd h (by simp)
    · rw [if_neg hb] at h
      simp only [Except.ok.injEq] at h
      subst h
      push_neg at hb
      exact ⟨hb.1, by simpa using hb.2, le_refl _, by omega, fun q h1 h2 => by omega⟩
  | succ f ih =>
    intro port p h
    rw [findPortAux] at h
    by_cases hb : port ∈ used ∨ osBusy port = true
    · rw [if_pos hb] at h
      obtain ⟨h1, h2, h3, h4, h5⟩ := ih (port + 1) p h
      refine ⟨h1, h2, by omega, by omega, ?_⟩
      intro q hq1 hq2
      rcases Nat.eq_or_lt_of_le hq1 with rfl | hq
      · exact hb
      · exact h5 q hq hq2
    · rw [if_neg hb] at h
      simp only [Except.ok.injEq] at h
      subst h
      push_neg at hb
      exact ⟨hb.1, by simpa using hb.2, le_refl _, by omega, fun q h1 h2 => by omega⟩

/-- When the scan loop raises, every candidate in the scanned range was
either recorded as a running worker's port or reported busy by the probe. -/
theorem findPortAux_error_spec (used : List Nat) (osBusy : Nat → Bool) :
    ∀ fuel port msg, findPortAux used osBusy port fuel = .error msg →
      ∀ q, port ≤ q → q ≤ port + fuel → (q ∈ used ∨ osBusy q = true) := by
  intro fuel
  induction fuel with
  | zero =>
    intro port msg h q hq1 hq2
    rw [findPortAux] at h
    by_cases hb : port ∈ used ∨ osBusy port = true
    · have : q = port := by omega
      subst this
      exact hb
    · rw [if_neg hb] at h
      exact absurd h (by simp)
  | succ f ih =>
    intro port msg h q hq1 hq2
    rw [findPortAux] at h
    by_cases hb : port ∈ used ∨ osBusy port = true
    · rw [if_pos hb] at h
      rcases Nat.eq_or_lt_of_le hq1 with rfl | hq
      · exact hb
      · exact ih (port + 1) msg h q hq (by omega)
    · rw [if_neg hb] at h
      exact absurd h (by simp)

/-- When every candidate in the scanned range fails one of the two checks,
the scan loop raises `Exception("No available ports found.")`. -/
theorem findPortAux_error_of_allBusy (used : List Nat) (osBusy : Nat → Bool) :
    ∀ fuel port, (∀ q, port ≤ q → q ≤ port + fuel → (q ∈ used ∨ osBusy q = true)) →
      findPortAux used osBusy port fuel = .error "No available ports found." := by
  intro fuel
  induction fuel with
  | zero =>
    intro port hall
    have hb := hall port (le_refl _) (by omega)
    rw [findPortAux, if_pos hb]
  | succ f ih =>
    intro port hall
    have hb := hall port (le_refl _) (by omega)
    rw [findPortAux, if_pos hb]
    exact ih (port + 1) (fun q h1 h2 => hall q (by omega) (by omega))

end AgentsApp

namespace AgentsApp

/-- Updating a row does not change the set of keys of the table. -/
theorem keys_setAgent (reg : Registry) (id : String) (a : Agent) :
    (setAgent reg id a).map Prod.fst = reg.map Prod.fst := by
  induction reg with
  | nil => rfl
  | cons e t ih =>
    simp only [setAgent, List.map_cons] at *
    by_cases hk : e.1 = id
    · simp [hk, ih]
    · simp [hk, ih]

/-- Updating a key that is not present leaves the table unchanged. -/
theorem setAgent_of_not_mem (reg : Registry) (id : String) (a : Agent)
    (h : ¬ id ∈ reg.map Prod.fst) : setAgent reg id a = reg := by
  induction reg with
  | nil => rfl
  | cons e t ih =>
    simp only [List.map_cons, List.mem_cons] at h
    push_neg at h
    simp only [setAgent, List.map_cons]
    rw [if_neg (fun hk => h.1 hk.symm)]
    have := ih h.2
    simp only [setAgent] at this
    rw [this]

/-- Every entry of the updated table is the new row or an original entry. -/
theorem mem_setAgent (reg : Registry) (id : String) (a : Agent) :
    ∀ e ∈ setAgent reg id a, e.2 = a ∨ e ∈ reg := by
  intro e he
  simp only [setAgent, List.mem_map] at he
  obtain ⟨x, hx, hxe⟩ := he
  by_cases hk : x.1 = id
  · rw [if_pos hk] at hxe
    left
    rw [← hxe]
  · rw [if_neg hk] at hxe
    right
    rw [← hxe]
    exact hx

/-- A successful lookup followed by an update makes the new row visible. -/
theorem lookupAgent_setAgent (reg : Registry) (id : String) (a b : Agent)
    (h : lookupAgent reg id = some a) :
    lookupAgent (setAgent reg id b) id = some b := by
  induction reg with
  | nil => simp [lookupAgent] at h
  | cons e t ih =>
    by_cases hk : e.1 = id
    · have hcons : setAgent (e :: t) id b = (id, b) :: setAgent t id b := by
        simp [setAgent, hk]
      rw [hcons]
      unfold lookupAgent
      rw [List.find?_cons_of_pos _ (by simp)]
      rfl
    · have hcons : setAgent (e :: t) id b = e :: setAgent t id b := by
        simp [setAgent, hk]
      rw [hcons]
      unfold lookupAgent at h ⊢
      rw [List.find?_cons_of_neg _ (by simpa using hk)] at h ⊢
      exact ih h

/-- `runningPorts` distributes over cons. -/
theorem runningPorts_cons (e : String × Agent) (t : Registry) :
    runningPorts (e :: t) = contrib e.2 ++ runningPorts t := by
  simp [runningPorts]

/-- Ports of the updated table come from the original table or from the new
row (when it is `running` with a port). -/
theorem mem_runningPorts_setAgent (reg : Registry) (id : String) (a : Agent) :
    ∀ x ∈ runningPorts (setAgent reg id a),
      x ∈ runningPorts reg ∨ (a.status = .running ∧ a.port = some x) := by
  induction reg with
  | nil => intro x hx; simp [setAgent, runningPorts] at hx
  | cons e t ih =>
    intro x hx
    by_cases hk : e.1 = id
    · have hcons : setAgent (e :: t) id a = (id, a) :: setAgent t id a := by
        simp [setAgent, hk]
      rw [hcons, runningPorts_cons] at hx
      rcases List.mem_append.mp hx with hx1 | hx2
      · right
        simp only [contrib] at hx1
        by_cases hst : a.status = .running
        · rw [if_pos hst] at hx1
          cases hp : a.port with
          | none => rw [hp] at hx1; simp at hx1
          | some q =>
            rw [hp] at hx1
            simp only [Option.toList] at hx1
            simp only [List.mem_singleton] at hx1
            exact ⟨hst, by simp [hx1]⟩
        · rw [if_neg hst] at hx1; simp at hx1
      · rcases ih x hx2 with h1 | h2
        · left
          rw [runningPorts_cons]
          exact List.mem_append.mpr (Or.inr h1)
        · right; exact h2
    · have hcons : setAgent (e :: t) id a = e :: setAgent t id a := by
        simp [setAgent, hk]
      rw [hcons, runningPorts_cons] at hx
      rcases List.mem_append.mp hx with hx1 | hx2
      · left
        rw [runningPorts_cons]
        exact List.mem_append.mpr (Or.inl hx1)
      · rcases ih x hx2 with h1 | h2
        · left
          rw [runningPorts_cons]
          exact List.mem_append.mpr (Or.inr h1)
        · right; exact h2

end AgentsApp

namespace AgentsApp

/-- Membership in one row's port contribution. -/
theorem mem_contrib (a : Agent) (x : Nat) :
    x ∈ contrib a ↔ (a.status = .running ∧ a.port = some x) := by
  simp only [contrib]
  by_cases hst : a.status = .running
  · rw [if_pos hst]
    cases hp : a.port <;> simp [hst, hp, eq_comm]
  · rw [if_neg hst]
    simp [hst]

/-- `runningPorts` distributes over append. -/
theorem runningPorts_append (r1 r2 : Registry) :
    runningPorts (r1 ++ r2) = runningPorts r1 ++ runningPorts r2 := by
  simp [runningPorts]

/-- Updating one row whose new port (if `running`) is not among the ports
of `running` rows keeps the list of running ports duplicate-free. -/
theorem nodup_runningPorts_setAgent (id : String) (a : Agent) :
    ∀ reg : Registry, (reg.map Prod.fst).Nodup →
      (runningPorts reg).Nodup →
      (∀ p, a.status = .running → a.port = some p → p ∉ runningPorts reg) →
      (runningPorts (setAgent reg id a)).Nodup := by
  intro reg
  induction reg with
  | nil =>
    intro _ _ _
    simp [setAgent, runningPorts]
  | cons e t ih =>
    intro hkeys hnd hfresh
    rw [List.map_cons, List.nodup_cons] at hkeys
    rw [runningPorts_cons] at hnd
    rw [List.nodup_append] at hnd
    obtain ⟨hnd1, hnd2, hdisj⟩ := hnd
    by_cases hk : e.1 = id
    · have hcons : setAgent (e :: t) id a = (id, a) :: setAgent t id a := by
        simp [setAgent, hk]
      have hsame : setAgent t id a = t := by
        apply setAgent_of_not_mem
        rw [← hk]
        exact hkeys.1
      rw [hcons, hsame, runningPorts_cons]
      rw [List.nodup_append]
      refine ⟨?_, hnd2, ?_⟩
      · simp only [contrib]
        by_cases hst : a.status = .running
        · rw [if_pos hst]; cases a.port <;> simp
        · rw [if_neg hst]; simp
      · intro x hx
        obtain ⟨hst, hp⟩ := (mem_contrib _ _).mp hx
        have := hfresh x hst hp
        rw [runningPorts_cons, List.mem_append] at this
        intro hxt
        exact this (Or.inr hxt)
    · have hcons : setAgent (e :: t) id a = e :: setAgent t id a := by
        simp [setAgent, hk]
      rw [hcons, runningPorts_cons, List.nodup_append]
      have hfresh' : ∀ p, a.status = .running → a.port = some p →
          p ∉ runningPorts t := by
        intro p hst hp hpt
        have := hfresh p hst hp
        rw [runningPorts_cons, List.mem_append] at this
        exact this (Or.inr hpt)
      refine ⟨hnd1, ih hkeys.2 hnd2 hfresh', ?_⟩
      intro x hx hx'
      rcases mem_runningPorts_setAgent t id a x hx' with h1 | h2
      · exact hdisj hx h1
      · have := hfresh x h2.1 h2.2
        rw [runningPorts_cons, List.mem_append] at this
        exact this (Or.inl hx)

/-- A key that `Agents.query.filter_by` does not find is absent. -/
theorem not_mem_keys_of_lookup_none (reg : Registry) (id : String)
    (h : lookupAgent reg id = none) : ¬ id ∈ reg.map Prod.fst := by
  intro hid
  simp only [lookupAgent, Option.map_eq_none'] at h
  rw [List.find?_eq_none] at h
  simp only [List.mem_map] at hid
  obtain ⟨e, he, hee⟩ := hid
  have := h e he
  simp only [decide_eq_true_eq] at this
  exact this hee

/-- The structural invariant behind port uniqueness: the table's keys are
distinct and the list of ports of `running` rows is duplicate-free. -/
def uniqInv (reg : Registry) : Prop :=
  (reg.map Prod.fst).Nodup ∧ (runningPorts reg).Nodup

/-- Interface of the scan loop at the `find_available_port` wrapper: a
returned port passed both checks, is at least the start port, stays within
the valid range, and is the smallest such candidate. -/
theorem find_available_port_ok (used : List Nat) (osBusy : Nat → Bool)
    (startPort p : Nat)
    (h : find_available_port used osBusy startPort = .ok p) :
    p ∉ used ∧ osBusy p = false ∧ startPort ≤ p ∧
      (startPort ≤ 65535 → p ≤ 65535) ∧
      ∀ q, startPort ≤ q → q < p → (q ∈ used ∨ osBusy q = true) := by
  obtain ⟨h1, h2, h3, h4, h5⟩ := findPortAux_ok_spec used osBusy _ _ _ h
  exact ⟨h1, h2, h3, fun hs => by omega, h5⟩

/-- When `find_available_port` raises, every candidate from the start port
up to and including 65535 failed one of the two checks. -/
theorem find_available_port_error (used : List Nat) (osBusy : Nat → Bool)
    (startPort : Nat) (msg : String)
    (h : find_available_port used osBusy startPort = .error msg) :
    ∀ q, startPort ≤ q → q ≤ 65535 → (q ∈ used ∨ osBusy q = true) := by
  intro q h1 h2
  exact findPortAux_error_spec used osBusy _ _ _ h q h1 (by omega)

/-- When every candidate from the start port up to and including 65535
fails one of the two checks, `find_available_port` raises. -/
theorem find_available_port_error_of_allBusy (used : List Nat)
    (osBusy : Nat → Bool) (startPort : Nat) (hs : startPort ≤ 65535)
    (hall : ∀ q, startPort ≤ q → q ≤ 65535 → (q ∈ used ∨ osBusy q = true)) :
    find_available_port used osBusy startPort =
      .error "No available ports found." :=
  findPortAux_error_of_allBusy used osBusy _ _
    (fun q h1 h2 => hall q h1 (by omega))

end AgentsApp

namespace AgentsApp

/-- The launch phase preserves the uniqueness invariant: it only ever
commits this row either cleared (no port) or `running` with a port that
`find_available_port` certified absent from the running ports. -/
theorem launchPhase_uniqInv (reg : Registry) (id : String) (a : Agent)
    (env : Env) (h : uniqInv reg) : uniqInv (launchPhase reg id a env).reg := by
  unfold launchPhase
  split
  · exact h
  · split
    · exact h
    next port hfind =>
      split
      · refine ⟨by rw [keys_setAgent]; exact h.1, ?_⟩
        apply nodup_runningPorts_setAgent _ _ _ h.1 h.2
        intro p _ hp'
        simp [clearAgent] at hp'
      · refine ⟨by rw [keys_setAgent]; exact h.1, ?_⟩
        apply nodup_runningPorts_setAgent _ _ _ h.1 h.2
        intro p _ hp'
        simp only [Option.some.injEq] at hp'
        subst hp'
        exact (find_available_port_ok _ _ _ _ hfind).1

/-- The whole start operation preserves the uniqueness invariant. -/
theorem startFromRead_uniqInv (a : Agent) (reg : Registry) (id : String)
    (env : Env) (h : uniqInv reg) : uniqInv (startFromRead a reg id env).reg := by
  unfold startFromRead
  split
  · split
    · exact h
    · apply launchPhase_uniqInv
      refine ⟨by rw [keys_setAgent]; exact h.1, ?_⟩
      apply nodup_runningPorts_setAgent _ _ _ h.1 h.2
      intro p _ hp'
      simp [clearAgent] at hp'
  · exact launchPhase_uniqInv _ _ _ _ h

/-- `start_agent` preserves the uniqueness invariant. -/
theorem start_agent_uniqInv (reg : Registry) (id : String) (env : Env)
    (h : uniqInv reg) : uniqInv (start_agent reg id env).reg := by
  unfold start_agent
  split
  · exact h
  · exact startFromRead_uniqInv _ _ _ _ h

/-- `stop_agent` preserves the uniqueness invariant: every commit it makes
clears the row's port. -/
theorem stop_agent_uniqInv (reg : Registry) (id : String) (env : Env)
    (h : uniqInv reg) : uniqInv (stop_agent reg id env).reg := by
  unfold stop_agent
  split
  · exact h
  · split
    · split
      · refine ⟨by rw [keys_setAgent]; exact h.1, ?_⟩
        apply nodup_runningPorts_setAgent _ _ _ h.1 h.2
        intro p _ hp'
        simp at hp'
      · exact h
    · split
      · refine ⟨by rw [keys_setAgent]; exact h.1, ?_⟩
        apply nodup_runningPorts_setAgent _ _ _ h.1 h.2
        intro p _ hp'
        simp [clearAgent] at hp'
      · refine ⟨by rw [keys_setAgent]; exact h.1, ?_⟩
        apply nodup_runningPorts_setAgent _ _ _ h.1 h.2
        intro p _ hp'
        simp [clearAgent] at hp'

/-- `create_agent` preserves the uniqueness invariant: the only insert is a
fresh key in `created` status without a port. -/
theorem create_agent_uniqInv (reg : Registry) (fs : List String)
    (aid : String) (env : Env) (h : uniqInv reg) :
    uniqInv (create_agent reg fs aid env).reg := by
  unfold create_agent
  split
  · exact h
  · split
    · exact h
    · split
      next hdb =>
        constructor
        · rw [List.map_append]
          rw [List.nodup_append]
          refine ⟨h.1, by simp, ?_⟩
          intro x hx hx'
          simp only [List.map_cons, List.map_nil, List.mem_singleton] at hx'
          subst hx'
          exact not_mem_keys_of_lookup_none _ _ hdb.2 hx
        · rw [runningPorts_append]
          have : runningPorts [(aid, newAgentRecord aid)] = [] := by
            simp [runningPorts, contrib, newAgentRecord]
          rw [this, List.append_nil]
          exact h.2
      · exact h

/-- One operation preserves the uniqueness invariant. -/
theorem stepOp_uniqInv (reg : Registry) (oe : Op × Env) (h : uniqInv reg) :
    uniqInv (stepOp reg oe) := by
  rcases oe with ⟨op, env⟩
  cases op with
  | create id => exact create_agent_uniqInv _ _ _ _ h
  | start id => exact start_agent_uniqInv _ _ _ h
  | stop id => exact stop_agent_uniqInv _ _ _ h

/-- Any sequence of operations preserves the uniqueness invariant. -/
theorem execOps_uniqInv (ops : List (Op × Env)) :
    ∀ reg, uniqInv reg → uniqInv (execOps reg ops) := by
  induction ops with
  | nil => intro reg h; exact h
  | cons oe t ih =>
    intro reg h
    exact ih _ (stepOp_uniqInv _ _ h)

/-- Counting rows that are `running` on port `p` equals counting `p` among
the running ports. -/
theorem countP_running_eq_count (p : Nat) :
    ∀ reg : Registry,
      reg.countP (fun e => decide (e.2.status = Status.running ∧ e.2.port = some p)) =
        (runningPorts reg).count p := by
  intro reg
  induction reg with
  | nil => rfl
  | cons e t ih =>
    rw [List.countP_cons, runningPorts_cons, List.count_append, ih]
    have : (contrib e.2).count p =
        (if (e.2.status = Status.running ∧ e.2.port = some p) then 1 else 0) := by
      simp only [contrib]
      by_cases hst : e.2.status = .running
      · rw [if_pos hst]
        cases hp : e.2.port with
        | none => simp [hst, hp]
        | some q =>
          by_cases hq : q = p
          · subst hq; simp [hst, hp, List.count_singleton]
          · simp [hst, hp, hq, List.count_singleton]
      · rw [if_neg hst]
        simp [hst]
    rw [this]
    by_cases hc : (e.2.status = Status.running ∧ e.2.port = some p)
    · simp [hc]
      omega
    · simp [hc]

end AgentsApp

namespace AgentsApp

/-- A row found by lookup is an entry of the table. -/
theorem mem_of_lookupAgent (reg : Registry) (id : String) (a : Agent)
    (h : lookupAgent reg id = some a) : ∃ e ∈ reg, e.2 = a := by
  simp only [lookupAgent, Option.map_eq_some'] at h
  obtain ⟨e, he, hee⟩ := h
  exact ⟨e, List.mem_of_find?_eq_some he, hee⟩

/-- A falsy optional pid that is not the impossible value `some 0` is
`None`. -/
theorem pid_none_of_not_truthy (o : Option Nat) (h : truthy o = false)
    (h0 : o ≠ some 0) : o = none := by
  cases o with
  | none => rfl
  | some n =>
    simp only [truthy, Option.getD_some, bne_eq_false_iff_eq] at h
    subst h
    exact absurd rfl h0

/-- The pid/port pairing invariant, strengthened with the OS fact that a
recorded pid is never 0 (`subprocess.Popen` pids are positive): for every
row, `port` is set exactly when `pid` is set. -/
def pairInv (reg : Registry) : Prop :=
  ∀ e ∈ reg, (e.2.port.isSome ↔ e.2.pid.isSome) ∧ e.2.pid ≠ some 0

/-- Updating one row that itself satisfies the pairing property preserves
the pairing invariant. -/
theorem pairInv_setAgent (reg : Registry) (id : String) (a : Agent)
    (h : pairInv reg)
    (ha : (a.port.isSome ↔ a.pid.isSome) ∧ a.pid ≠ some 0) :
    pairInv (setAgent reg id a) := by
  intro e he
  rcases mem_setAgent reg id a e he with h1 | h2
  · rw [h1]
    exact ha
  · exact h e h2

/-- Exhaustive description of the launch phase: the four ways it can end —
missing file, port-allocation failure, early child exit, success — with the
exact result each produces. -/
theorem launchPhase_cases (reg : Registry) (id : String) (a : Agent)
    (env : Env) :
    (env.fileExists a.filePath = false ∧
       launchPhase reg id a env = ⟨.fileNotFound, reg, [], 0, 0⟩) ∨
    (env.fileExists a.filePath = true ∧
       (∃ msg, find_available_port (runningPorts reg) env.osBusy
          BASE_AGENT_PORT = .error msg) ∧
       launchPhase reg id a env = ⟨.portError, reg, [], 0, 1⟩) ∨
    (∃ port c, env.fileExists a.filePath = true ∧
       find_available_port (runningPorts reg) env.osBusy
          BASE_AGENT_PORT = .ok port ∧
       env.earlyExit = some c ∧
       launchPhase reg id a env =
         ⟨.launchFailed c, setAgent reg id (clearAgent a .error),
          [setAgent reg id (clearAgent a .error)], 1, 1⟩) ∨
    (∃ port, env.fileExists a.filePath = true ∧
       find_available_port (runningPorts reg) env.osBusy
          BASE_AGENT_PORT = .ok port ∧
       env.earlyExit = none ∧
       launchPhase reg id a env =
         ⟨.started port env.spawnPid,
          setAgent reg id { a with status := .running, pid := some env.spawnPid, port := some port },
          [setAgent reg id { a with status := .running, pid := some env.spawnPid, port := some port }], 1, 1⟩) := by
  unfold launchPhase
  split
  next hf =>
    exact Or.inl ⟨hf, rfl⟩
  next hf =>
    rw [Bool.not_eq_false] at hf
    split
    next msg hfind =>
      exact Or.inr (Or.inl ⟨hf, ⟨msg, hfind⟩, rfl⟩)
    next port hfind =>
      split
      next c hee =>
        exact Or.inr (Or.inr (Or.inl ⟨port, c, hf, hfind, hee, rfl⟩))
      next hee =>
        exact Or.inr (Or.inr (Or.inr ⟨port, hf, hfind, hee, rfl⟩))

/-- Exhaustive description of a start request once the row has been read:
it either answers "already running" without touching anything, repairs a
stale `running` row and falls into the launch phase, or goes straight to
the launch phase. -/
theorem startFromRead_cases (a : Agent) (reg : Registry) (id : String)
    (env : Env) :
    ((a.status = .running ∧ truthy a.pid = true) ∧
       env.alive (a.pid.getD 0) = true ∧
       startFromRead a reg id env = ⟨.alreadyRunning a.port, reg, [], 0, 0⟩) ∨
    ((a.status = .running ∧ truthy a.pid = true) ∧
       env.alive (a.pid.getD 0) = false ∧
       startFromRead a reg id env =
         ⟨(launchPhase (setAgent reg id (clearAgent a .error)) id
             (clearAgent a .error) env).outcome,
          (launchPhase (setAgent reg id (clearAgent a .error)) id
             (clearAgent a .error) env).reg,
          setAgent reg id (clearAgent a .error) ::
            (launchPhase (setAgent reg id (clearAgent a .error)) id
              (clearAgent a .error) env).commits,
          (launchPhase (setAgent reg id (clearAgent a .error)) id
             (clearAgent a .error) env).spawns,
          (launchPhase (setAgent reg id (clearAgent a .error)) id
             (clearAgent a .error) env).allocs⟩) ∨
    (¬(a.status = .running ∧ truthy a.pid = true) ∧
       startFromRead a reg id env = launchPhase reg id a env) := by
  unfold startFromRead
  split
  next hrun =>
    split
    next halive => exact Or.inl ⟨hrun, halive, rfl⟩
    next halive =>
      rw [Bool.not_eq_true] at halive
      exact Or.inr (Or.inl ⟨hrun, halive, rfl⟩)
  next hrun =>
    exact Or.inr (Or.inr ⟨hrun, rfl⟩)

end AgentsApp

namespace AgentsApp

/-- The launch phase preserves the pairing invariant: it commits the row
either fully cleared or with both `port` and `pid` set (to a nonzero pid). -/
theorem launchPhase_pairInv (reg : Registry) (id : String) (a : Agent)
    (env : Env) (h : pairInv reg) (hpid : env.spawnPid ≠ 0) :
    pairInv (launchPhase reg id a env).reg := by
  rcases launchPhase_cases reg id a env with
    ⟨_, heq⟩ | ⟨_, _, heq⟩ | ⟨port, c, _, _, _, heq⟩ | ⟨port, _, _, _, heq⟩
  · rw [heq]; exact h
  · rw [heq]; exact h
  · rw [heq]
    apply pairInv_setAgent _ _ _ h
    simp [clearAgent]
  · rw [heq]
    apply pairInv_setAgent _ _ _ h
    refine ⟨by simp, ?_⟩
    simp only [ne_eq, Option.some.injEq]
    exact hpid

/-- A start request preserves the pairing invariant. -/
theorem startFromRead_pairInv (a : Agent) (reg : Registry) (id : String)
    (env : Env) (h : pairInv reg) (hpid : env.spawnPid ≠ 0) :
    pairInv (startFromRead a reg id env).reg := by
  rcases startFromRead_cases a reg id env with
    ⟨_, _, heq⟩ | ⟨_, _, heq⟩ | ⟨_, heq⟩
  · rw [heq]; exact h
  · rw [heq]
    apply launchPhase_pairInv _ _ _ _ _ hpid
    apply pairInv_setAgent _ _ _ h
    simp [clearAgent]
  · rw [heq]
    exact launchPhase_pairInv _ _ _ _ h hpid

/-- `start_agent` preserves the pairing invariant. -/
theorem start_agent_pairInv (reg : Registry) (id : String) (env : Env)
    (h : pairInv reg) (hpid : env.spawnPid ≠ 0) :
    pairInv (start_agent reg id env).reg := by
  unfold start_agent
  split
  · exact h
  · exact startFromRead_pairInv _ _ _ _ h hpid

/-- `stop_agent` preserves the pairing invariant. -/
theorem stop_agent_pairInv (reg : Registry) (id : String) (env : Env)
    (h : pairInv reg) : pairInv (stop_agent reg id env).reg := by
  unfold stop_agent
  split
  · exact h
  next a hlk =>
    split
    next hnot =>
      split
      next hinc =>
        apply pairInv_setAgent _ _ _ h
        obtain ⟨e, he, hea⟩ := mem_of_lookupAgent reg id a hlk
        have hpair := h e he
        rw [hea] at hpair
        have hnone : a.pid = none :=
          pid_none_of_not_truthy a.pid hinc.2 hpair.2
        exact ⟨by simp [hnone], by simp [hnone]⟩
      · exact h
    · split
      · apply pairInv_setAgent _ _ _ h
        simp [clearAgent]
      · apply pairInv_setAgent _ _ _ h
        simp [clearAgent]

/-- `create_agent` preserves the pairing invariant: the inserted row has
neither port nor pid. -/
theorem create_agent_pairInv (reg : Registry) (fs : List String)
    (aid : String) (env : Env) (h : pairInv reg) :
    pairInv (create_agent reg fs aid env).reg := by
  unfold create_agent
  split
  · exact h
  · split
    · exact h
    · split
      · intro e he
        rw [List.mem_append] at he
        rcases he with he | he
        · exact h e he
        · simp only [List.mem_singleton] at he
          rw [he]
          simp [newAgentRecord]
      · exact h

/-- One operation preserves the pairing invariant, given the OS fact that
spawned pids are nonzero. -/
theorem stepOp_pairInv (reg : Registry) (oe : Op × Env) (h : pairInv reg)
    (hpid : oe.2.spawnPid ≠ 0) : pairInv (stepOp reg oe) := by
  rcases oe with ⟨op, env⟩
  cases op with
  | create id => exact create_agent_pairInv _ _ _ _ h
  | start id => exact start_agent_pairInv _ _ _ h hpid
  | stop id => exact stop_agent_pairInv _ _ _ h

end AgentsApp

namespace AgentsApp

/-- A start request for an unknown id answers `NotFound` without effects. -/
theorem start_agent_none (reg : Registry) (id : String) (env : Env)
    (h : lookupAgent reg id = none) :
    start_agent reg id env = ⟨.notFound, reg, [], 0, 0⟩ := by
  unfold start_agent
  rw [h]

/-- A start request for a known id runs the body on the row it read. -/
theorem start_agent_some (reg : Registry) (id : String) (env : Env)
    (a : Agent) (h : lookupAgent reg id = some a) :
    start_agent reg id env = startFromRead a reg id env := by
  unfold start_agent
  rw [h]

/-- Launch phase, missing-file branch. -/
theorem launchPhase_eq_fileNotFound (reg : Registry) (id : String)
    (a : Agent) (env : Env) (hfile : env.fileExists a.filePath = false) :
    launchPhase reg id a env = ⟨.fileNotFound, reg, [], 0, 0⟩ := by
  rcases launchPhase_cases reg id a env with
    ⟨_, heq⟩ | ⟨hf, _, heq⟩ | ⟨_, _, hf, _, _, heq⟩ | ⟨_, hf, _, _, heq⟩
  · exact heq
  · rw [hfile] at hf; cases hf
  · rw [hfile] at hf; cases hf
  · rw [hfile] at hf; cases hf

/-- Launch phase, port-exhaustion branch: the failure is returned with no
commit — the row is not touched. -/
theorem launchPhase_eq_portError (reg : Registry) (id : String) (a : Agent)
    (env : Env) (msg : String)
    (hfile : env.fileExists a.filePath = true)
    (hfind : find_available_port (runningPorts reg) env.osBusy
      BASE_AGENT_PORT = .error msg) :
    launchPhase reg id a env = ⟨.portError, reg, [], 0, 1⟩ := by
  rcases launchPhase_cases reg id a env with
    ⟨hf, _⟩ | ⟨_, _, heq⟩ | ⟨_, _, _, hf, _, _⟩ | ⟨_, _, hf, _, _⟩
  · rw [hfile] at hf; cases hf
  · exact heq
  · rw [hfind] at hf; cases hf
  · rw [hfind] at hf; cases hf

/-- Launch phase, early-exit branch: the child died within the grace
interval, so the row is committed as `error` with pid/port cleared. -/
theorem launchPhase_eq_launchFailed (reg : Registry) (id : String)
    (a : Agent) (env : Env) (port : Nat) (c : Int)
    (hfile : env.fileExists a.filePath = true)
    (hfind : find_available_port (runningPorts reg) env.osBusy
      BASE_AGENT_PORT = .ok port)
    (hee : env.earlyExit = some c) :
    launchPhase reg id a env =
      ⟨.launchFailed c, setAgent reg id (clearAgent a .error),
       [setAgent reg id (clearAgent a .error)], 1, 1⟩ := by
  rcases launchPhase_cases reg id a env with
    ⟨hf, _⟩ | ⟨_, ⟨msg, hf⟩, _⟩ | ⟨p', c', _, hf, he, heq⟩ | ⟨p', _, hf, he, _⟩
  · rw [hfile] at hf; cases hf
  · rw [hfind] at hf; cases hf
  · rw [hfind] at hf
    injection hf with hport
    subst hport
    rw [hee] at he
    injection he with hc
    subst hc
    exact heq
  · rw [hee] at he; cases he

/-- Launch phase, success branch: the row is committed `running` with the
allocated port and the spawned pid. -/
theorem launchPhase_eq_started (reg : Registry) (id : String) (a : Agent)
    (env : Env) (port : Nat)
    (hfile : env.fileExists a.filePath = true)
    (hfind : find_available_port (runningPorts reg) env.osBusy
      BASE_AGENT_PORT = .ok port)
    (hee : env.earlyExit = none) :
    launchPhase reg id a env =
      ⟨.started port env.spawnPid,
       setAgent reg id { a with status := .running, pid := some env.spawnPid, port := some port },
       [setAgent reg id { a with status := .running, pid := some env.spawnPid, port := some port }], 1, 1⟩ := by
  rcases launchPhase_cases reg id a env with
    ⟨hf, _⟩ | ⟨_, ⟨msg, hf⟩, _⟩ | ⟨p', c', _, hf, he, _⟩ | ⟨p', _, hf, he, heq⟩
  · rw [hfile] at hf; cases hf
  · rw [hfind] at hf; cases hf
  · rw [hee] at he; cases he
  · rw [hfind] at hf
    injection hf with hport
    subst hport
    exact heq

/-- Start body on a row that is not (`running` with truthy pid): straight
to the launch phase. -/
theorem startFromRead_not_running (a : Agent) (reg : Registry) (id : String)
    (env : Env) (hnot : ¬(a.status = .running ∧ truthy a.pid = true)) :
    startFromRead a reg id env = launchPhase reg id a env := by
  unfold startFromRead
  rw [if_neg hnot]

/-- Start body on a `running` row with a dead pid: the stale-record repair
is committed first, then the launch phase runs on the repaired registry. -/
theorem startFromRead_stale (a : Agent) (reg : Registry) (id : String)
    (env : Env) (hrun : a.status = .running ∧ truthy a.pid = true)
    (hdead : env.alive (a.pid.getD 0) = false) :
    startFromRead a reg id env =
      ⟨(launchPhase (setAgent reg id (clearAgent a .error)) id
          (clearAgent a .error) env).outcome,
       (launchPhase (setAgent reg id (clearAgent a .error)) id
          (clearAgent a .error) env).reg,
       setAgent reg id (clearAgent a .error) ::
         (launchPhase (setAgent reg id (clearAgent a .error)) id
           (clearAgent a .error) env).commits,
       (launchPhase (setAgent reg id (clearAgent a .error)) id
          (clearAgent a .error) env).spawns,
       (launchPhase (setAgent reg id (clearAgent a .error)) id
          (clearAgent a .error) env).allocs⟩ := by
  unfold startFromRead
  rw [if_pos hrun, if_neg (by rw [hdead]; exact Bool.false_ne_true)]

end AgentsApp

namespace AgentsApp

/-- A concrete freshly-created row, for instantiating theorems. -/
def wAgent : Agent :=
  { status := .created, port := none, pid := none, filePath := "agents/w1.py" }

/-- A concrete benign environment: no probed process alive, no port busy on
the OS, all files present, spawned pid 100, child survives the grace
interval, termination clean, user present, all I/O succeeds. -/
def wEnv : Env :=
  ⟨fun _ => false, fun _ => false, fun _ => true, 100, none, false,
   true, true, true, true⟩

/-- C6: at every registry state reachable from the empty registry by any
sequence of create, start and stop operations, no two worker rows
simultaneously in `running` status hold the same port: for every port
value `p`, at most one row has `status = running` together with
`port = p`. -/
theorem C6_port_uniqueness (ops : List (Op × Env)) (p : Nat) :
    ((execOps [] ops).countP
      (fun e => decide (e.2.status = Status.running ∧ e.2.port = some p))) ≤ 1 := by
  have h := execOps_uniqInv ops [] ⟨List.nodup_nil, by simp [runningPorts]⟩
  rw [countP_running_eq_count]
  exact List.nodup_iff_count_le_one.mp h.2 p

/-- C7: every create, start and stop operation preserves the invariant
that a row's `port` is set exactly when its `pid` is set.  The invariant is
strengthened with the OS fact that recorded pids are never 0 (`Popen` pids
are positive), which every reachable registry satisfies: rows are only ever
committed with both fields cleared or with both fields set to the spawned
child's values. -/
theorem C7_pid_port_pairing (reg : Registry) (oe : Op × Env)
    (hreg : ∀ e ∈ reg, (e.2.port.isSome ↔ e.2.pid.isSome) ∧ e.2.pid ≠ some 0)
    (hpid : oe.2.spawnPid ≠ 0) :
    ∀ e ∈ stepOp reg oe,
      (e.2.port.isSome ↔ e.2.pid.isSome) ∧ e.2.pid ≠ some 0 :=
  stepOp_pairInv reg oe hreg hpid

/-- Witness for C7: a start operation on a concrete fresh row yields the
row `running` with port 6000 and pid 100, which satisfies the pairing. -/
theorem C7_pid_port_pairing_witness :
    ((some 6000 : Option Nat).isSome ↔ (some 100 : Option Nat).isSome) ∧
      (some 100 : Option Nat) ≠ some 0 :=
  C7_pid_port_pairing [("w1", wAgent)] (Op.start "w1", wEnv)
    (by decide) (by decide)
    ("w1", { status := .running, port := some 6000, pid := some 100,
             filePath := "agents/w1.py" })
    (by decide)

/-- C3: a start request on a row in `running` status whose recorded pid
refers to a live process succeeds as a no-op: it answers with the row's
existing port, performs no commit, leaves the registry unchanged, calls the
port allocator zero times and spawns zero processes. -/
theorem C3_idempotent_start (reg : Registry) (id : String) (env : Env)
    (a : Agent) (p : Nat)
    (hlk : lookupAgent reg id = some a)
    (hst : a.status = .running) (hpid : a.pid = some p) (hp : p ≠ 0)
    (halive : env.alive p = true) :
    start_agent reg id env = ⟨.alreadyRunning a.port, reg, [], 0, 0⟩ := by
  rw [start_agent_some reg id env a hlk]
  unfold startFromRead
  have htr : truthy a.pid = true := by simp [truthy, hpid, hp]
  rw [if_pos ⟨hst, htr⟩, hpid]
  simp only [Option.getD_some]
  rw [if_pos halive]

/-- Witness for C3: starting a concrete running row with a live pid. -/
theorem C3_idempotent_start_witness :
    start_agent
      [("w1", { status := .running, port := some 6005, pid := some 42,
                filePath := "agents/w1.py" })] "w1"
      { wEnv with alive := fun _ => true } =
    ⟨.alreadyRunning (some 6005),
     [("w1", { status := .running, port := some 6005, pid := some 42,
               filePath := "agents/w1.py" })], [], 0, 0⟩ :=
  C3_idempotent_start _ "w1" _
    { status := .running, port := some 6005, pid := some 42,
      filePath := "agents/w1.py" }
    42 (by decide) rfl rfl (by decide) rfl

end AgentsApp

namespace AgentsApp

/-- When the launch phase spawned a child and the child exited within the
grace interval, the phase ends in the launch-failed result, and the row is
visible as the cleared `error` record in the committed registry. -/
theorem launchPhase_failed_props (reg : Registry) (id : String) (a : Agent)
    (env : Env) (c : Int)
    (hlk : lookupAgent reg id = some a)
    (hsp : (launchPhase reg id a env).spawns = 1)
    (hee : env.earlyExit = some c) :
    launchPhase reg id a env =
      ⟨.launchFailed c, setAgent reg id (clearAgent a .error),
       [setAgent reg id (clearAgent a .error)], 1, 1⟩ ∧
    lookupAgent (setAgent reg id (clearAgent a .error)) id =
      some (clearAgent a .error) := by
  rcases launchPhase_cases reg id a env with
    ⟨_, heq⟩ | ⟨_, _, heq⟩ | ⟨port, c', hf, hfind, hee', heq⟩ |
    ⟨port, hf, hfind, hee', heq⟩
  · rw [heq] at hsp; cases hsp
  · rw [heq] at hsp; cases hsp
  · rw [hee] at hee'
    injection hee' with hc
    subst hc
    exact ⟨heq, lookupAgent_setAgent reg id a _ hlk⟩
  · rw [hee] at hee'; cases hee'

/-- C1: for every start request that spawned a child (`spawns = 1`) in an
environment where the child exits within the fixed grace interval
(`process.poll()` returns `some c` after the grace sleep), the request
fails with the launch-failure outcome carrying the child's exit code `c`,
the row ends in `error` with both `port` and `pid` cleared, and no commit
made by the request ever records `running` for this row. -/
theorem C1_launch_failure (reg : Registry) (id : String) (env : Env) (c : Int)
    (hsp : (start_agent reg id env).spawns = 1)
    (hee : env.earlyExit = some c) :
    (start_agent reg id env).outcome = .launchFailed c ∧
    (∃ b, lookupAgent (start_agent reg id env).reg id = some b ∧
       b.status = .error ∧ b.port = none ∧ b.pid = none) ∧
    (∀ r ∈ (start_agent reg id env).commits, ∀ b,
       lookupAgent r id = some b → b.status ≠ .running) := by
  cases hlk : lookupAgent reg id with
  | none =>
    rw [start_agent_none reg id env hlk] at hsp
    cases hsp
  | some a =>
    rw [start_agent_some reg id env a hlk] at hsp ⊢
    rcases startFromRead_cases a reg id env with
      ⟨hrun, halive, heq⟩ | ⟨hrun, hdead, heq⟩ | ⟨hnot, heq⟩
    · rw [heq] at hsp; cases hsp
    · rw [heq] at hsp ⊢
      dsimp only at hsp ⊢
      have hlk1 : lookupAgent (setAgent reg id (clearAgent a .error)) id =
          some (clearAgent a .error) := lookupAgent_setAgent reg id a _ hlk
      obtain ⟨heq2, hlk2⟩ :=
        launchPhase_failed_props _ id _ env c hlk1 hsp hee
      rw [heq2]
      dsimp only
      refine ⟨rfl, ⟨clearAgent (clearAgent a .error) .error, hlk2, rfl, rfl, rfl⟩, ?_⟩
      intro r hr b hb
      rcases List.mem_cons.mp hr with hr1 | hr2
      · subst hr1
        rw [hlk1] at hb
        injection hb with hb'
        rw [← hb']
        intro hcon
        cases hcon
      · rw [List.mem_singleton] at hr2
        subst hr2
        rw [hlk2] at hb
        injection hb with hb'
        rw [← hb']
        intro hcon
        cases hcon
    · rw [heq] at hsp ⊢
      obtain ⟨heq2, hlk2⟩ := launchPhase_failed_props reg id a env c hlk hsp hee
      rw [heq2]
      dsimp only
      refine ⟨rfl, ⟨clearAgent a .error, hlk2, rfl, rfl, rfl⟩, ?_⟩
      intro r hr b hb
      rw [List.mem_singleton] at hr
      subst hr
      rw [hlk2] at hb
      injection hb with hb'
      rw [← hb']
      intro hcon
      cases hcon

/-- Witness for C1: the concrete fresh row, with a child that exits with
code 1 inside the grace interval. -/
theorem C1_launch_failure_witness :
    (start_agent [("w1", wAgent)] "w1"
        { wEnv with earlyExit := some 1 }).outcome = .launchFailed 1 ∧
    (∃ b, lookupAgent (start_agent [("w1", wAgent)] "w1"
        { wEnv with earlyExit := some 1 }).reg "w1" = some b ∧
       b.status = .error ∧ b.port = none ∧ b.pid = none) ∧
    (∀ r ∈ (start_agent [("w1", wAgent)] "w1"
        { wEnv with earlyExit := some 1 }).commits, ∀ b,
       lookupAgent r "w1" = some b → b.status ≠ .running) :=
  C1_launch_failure _ "w1" _ 1 (by decide) rfl

end AgentsApp

namespace AgentsApp

/-- C2: a start request on a row recorded `running` whose recorded pid is
not alive (the `os.kill(pid, 0)` probe fails) first commits the
stale-record repair — `error` with pid and port cleared — and then proceeds
as a fresh start; when the subsequent launch succeeds, the request ends
with the row `running` on the newly allocated port with the new child's
pid, the commit sequence being exactly the repair followed by the new
running record — the stale row value is never left in place. -/
theorem C2_stale_self_heal (reg : Registry) (id : String) (env : Env)
    (a : Agent) (p newPort : Nat)
    (hlk : lookupAgent reg id = some a)
    (hst : a.status = .running) (hpid : a.pid = some p) (hp : p ≠ 0)
    (hdead : env.alive p = false)
    (hfile : env.fileExists a.filePath = true)
    (hfind : find_available_port
        (runningPorts (setAgent reg id (clearAgent a .error))) env.osBusy
        BASE_AGENT_PORT = .ok newPort)
    (hee : env.earlyExit = none) :
    ∃ reg1 reg2,
      start_agent reg id env =
        ⟨.started newPort env.spawnPid, reg2, [reg1, reg2], 1, 1⟩ ∧
      lookupAgent reg1 id = some (clearAgent a .error) ∧
      (clearAgent a .error).status = .error ∧
      (clearAgent a .error).port = none ∧
      (clearAgent a .error).pid = none ∧
      (∃ b, lookupAgent reg2 id = some b ∧ b.status = .running ∧
         b.port = some newPort ∧ b.pid = some env.spawnPid) := by
  have htr : truthy a.pid = true := by simp [truthy, hpid, hp]
  have hdead' : env.alive (a.pid.getD 0) = false := by
    rw [hpid]
    simpa using hdead
  rw [start_agent_some reg id env a hlk,
      startFromRead_stale a reg id env ⟨hst, htr⟩ hdead',
      launchPhase_eq_started _ id (clearAgent a .error) env newPort hfile
        hfind hee]
  dsimp only
  have hlk1 : lookupAgent (setAgent reg id (clearAgent a .error)) id =
      some (clearAgent a .error) := lookupAgent_setAgent reg id a _ hlk
  refine ⟨setAgent reg id (clearAgent a .error), _, rfl, hlk1, rfl, rfl, rfl, ?_⟩
  exact ⟨{ clearAgent a .error with status := .running, pid := some env.spawnPid, port := some newPort },
         lookupAgent_setAgent _ id (clearAgent a .error) _ hlk1, rfl, rfl, rfl⟩

/-- A concrete stale row: marked `running` with a pid no process has. -/
def wStale : Agent :=
  { status := .running, port := some 6002, pid := some 55,
    filePath := "agents/w1.py" }

/-- Witness for C2: starting the concrete stale row under the benign
environment repairs it and relaunches on port 6000 with pid 100. -/
theorem C2_stale_self_heal_witness :
    ∃ reg1 reg2,
      start_agent [("w1", wStale)] "w1" wEnv =
        ⟨.started 6000 wEnv.spawnPid, reg2, [reg1, reg2], 1, 1⟩ ∧
      lookupAgent reg1 "w1" = some (clearAgent wStale .error) ∧
      (clearAgent wStale .error).status = .error ∧
      (clearAgent wStale .error).port = none ∧
      (clearAgent wStale .error).pid = none ∧
      (∃ b, lookupAgent reg2 "w1" = some b ∧ b.status = .running ∧
         b.port = some 6000 ∧ b.pid = some wEnv.spawnPid) :=
  C2_stale_self_heal [("w1", wStale)] "w1" wEnv wStale 55 6000
    (by decide) rfl rfl (by decide) rfl rfl (by decide) rfl

end AgentsApp

namespace AgentsApp

/-- C4 counterexample: with no `running` workers recorded and the OS bind
probe reporting every port busy except 65535, `allocate(65534)` returns
port 65535 even though no candidate strictly below the maximum valid port
number 65535 passes both checks — the scan loop of `find_available_port`
tests candidates up to and including 65535, so it does not raise the
exhaustion error the claim requires at this input. -/
theorem C4_counterexample :
    find_available_port [] (fun q => q != 65535) 65534 = .ok 65535 ∧
    (∀ q, 65534 ≤ q → q < 65535 →
       (q ∈ ([] : List Nat) ∨ (fun q => q != 65535) q = true)) := by
  constructor
  · decide
  · intro q h1 h2
    right
    have hq : q = 65534 := by omega
    subst hq
    decide

/-- C4 amended: `allocate(preferredStart)` returns the smallest candidate
port at least `preferredStart` that is neither recorded as the port of a
`running` worker nor reported bound by the OS bind probe; if no candidate
at or below 65535 passes both checks (the scan range includes 65535
itself, not only the ports strictly below it), it fails with the
exhaustion error instead of returning a port. -/
theorem C4_port_allocation (used : List Nat) (osBusy : Nat → Bool)
    (startPort : Nat) (hs : startPort ≤ 65535) :
    (∀ p, find_available_port used osBusy startPort = .ok p →
        p ∉ used ∧ osBusy p = false ∧ startPort ≤ p ∧ p ≤ 65535 ∧
        ∀ q, startPort ≤ q → q < p → (q ∈ used ∨ osBusy q = true)) ∧
    (∀ msg, find_available_port used osBusy startPort = .error msg →
        ∀ q, startPort ≤ q → q ≤ 65535 → (q ∈ used ∨ osBusy q = true)) ∧
    ((∀ q, startPort ≤ q → q ≤ 65535 → (q ∈ used ∨ osBusy q = true)) →
        find_available_port used osBusy startPort =
          .error "No available ports found.") := by
  refine ⟨?_, ?_, ?_⟩
  · intro p h
    obtain ⟨h1, h2, h3, h4, h5⟩ := find_available_port_ok used osBusy startPort p h
    exact ⟨h1, h2, h3, h4 hs, h5⟩
  · intro msg h
    exact find_available_port_error used osBusy startPort msg h
  · intro hall
    exact find_available_port_error_of_allBusy used osBusy startPort hs hall

/-- Witness for C4 amended: allocation starting at 6000 with nothing used
or busy returns 6000, the smallest passing candidate. -/
theorem C4_port_allocation_witness :
    (6000 : Nat) ∉ ([] : List Nat) ∧ (fun _ : Nat => false) 6000 = false ∧
      6000 ≤ 6000 ∧ 6000 ≤ 65535 ∧
      ∀ q, 6000 ≤ q → q < 6000 →
        (q ∈ ([] : List Nat) ∨ (fun _ : Nat => false) q = true) :=
  (C4_port_allocation [] (fun _ => false) 6000 (by decide)).1 6000 (by decide)

end AgentsApp

namespace AgentsApp

/-- C5 counterexample: a start request on a `created` row in an environment
whose OS bind probe reports every port busy fails with the port-allocation
error but performs no commit: the row is left in `created` status, not in
`error` as the claim requires. -/
theorem C5_counterexample :
    start_agent [("w1", wAgent)] "w1" { wEnv with osBusy := fun _ => true } =
      ⟨.portError, [("w1", wAgent)], [], 0, 1⟩ ∧
    wAgent.status = .created := by
  constructor
  · rw [start_agent_some _ _ _ wAgent (by decide),
        startFromRead_not_running _ _ _ _ (by decide)]
    exact launchPhase_eq_portError _ _ _ _ "No available ports found." rfl
      (find_available_port_error_of_allBusy _ _ _ (by decide)
        (fun q h1 h2 => Or.inr rfl))
  · rfl

/-- C5 amended: a launch failure does leave the row in `error` with both
pid and port cleared; a port-allocation failure, however, is returned to
the caller without any commit of its own — the row keeps the value it had
when allocation ran: its original value when the request went straight to
the launch phase, or the repaired cleared-`error` value when the
stale-record repair had just been committed.  In both failure cases the row
is not left `running` (assuming the row, when `running`, records a nonzero
pid, as every reachable registry does). -/
theorem C5_failure_status (reg : Registry) (id : String) (env : Env)
    (a : Agent)
    (hlk : lookupAgent reg id = some a)
    (hshape : a.status = .running → ∃ p, a.pid = some p ∧ p ≠ 0) :
    (∀ c, (start_agent reg id env).outcome = .launchFailed c →
       ∃ b, lookupAgent (start_agent reg id env).reg id = some b ∧
         b.status = .error ∧ b.port = none ∧ b.pid = none) ∧
    ((start_agent reg id env).outcome = .portError →
       (start_agent reg id env).commits.length ≤ 1 ∧
       ∃ b, lookupAgent (start_agent reg id env).reg id = some b ∧
         b.status ≠ .running ∧ (b = a ∨ b = clearAgent a .error)) := by
  rw [start_agent_some reg id env a hlk]
  rcases startFromRead_cases a reg id env with
    ⟨hrun, halive, heq⟩ | ⟨hrun, hdead, heq⟩ | ⟨hnot, heq⟩
  · rw [heq]
    exact ⟨(fun c hc => by cases hc), (fun hc => by cases hc)⟩
  · rw [heq]
    dsimp only
    have hlk1 : lookupAgent (setAgent reg id (clearAgent a .error)) id =
        some (clearAgent a .error) := lookupAgent_setAgent reg id a _ hlk
    rcases launchPhase_cases (setAgent reg id (clearAgent a .error)) id
        (clearAgent a .error) env with
      ⟨_, heq2⟩ | ⟨_, _, heq2⟩ | ⟨port, c', _, _, _, heq2⟩ | ⟨port, _, _, _, heq2⟩
    · rw [heq2]
      exact ⟨(fun c hc => by cases hc), (fun hc => by cases hc)⟩
    · rw [heq2]
      refine ⟨(fun c hc => by cases hc), fun _ => ⟨by simp, ?_⟩⟩
      exact ⟨clearAgent a .error, hlk1, by simp [clearAgent], Or.inr rfl⟩
    · rw [heq2]
      refine ⟨fun c hc => ?_, fun hc => by cases hc⟩
      exact ⟨clearAgent (clearAgent a .error) .error,
             lookupAgent_setAgent _ id (clearAgent a .error) _ hlk1,
             rfl, rfl, rfl⟩
    · rw [heq2]
      exact ⟨(fun c hc => by cases hc), (fun hc => by cases hc)⟩
  · rw [heq]
    have hnr : a.status ≠ .running := by
      intro hcon
      obtain ⟨p, hpid, hp⟩ := hshape hcon
      exact hnot ⟨hcon, by simp [truthy, hpid, hp]⟩
    rcases launchPhase_cases reg id a env with
      ⟨_, heq2⟩ | ⟨_, _, heq2⟩ | ⟨port, c', _, _, _, heq2⟩ | ⟨port, _, _, _, heq2⟩
    · rw [heq2]
      exact ⟨(fun c hc => by cases hc), (fun hc => by cases hc)⟩
    · rw [heq2]
      refine ⟨(fun c hc => by cases hc), fun _ => ⟨by simp, ?_⟩⟩
      exact ⟨a, hlk, hnr, Or.inl rfl⟩
    · rw [heq2]
      refine ⟨fun c hc => ?_, fun hc => by cases hc⟩
      exact ⟨clearAgent a .error, lookupAgent_setAgent reg id a _ hlk,
             rfl, rfl, rfl⟩
    · rw [heq2]
      exact ⟨(fun c hc => by cases hc), (fun hc => by cases hc)⟩

/-- Witness for C5 amended: the concrete `created` row in the all-ports-busy
environment, where the port-allocation failure leaves the row untouched. -/
theorem C5_failure_status_witness :
    (∀ c, (start_agent [("w1", wAgent)] "w1"
        { wEnv with osBusy := fun _ => true }).outcome = .launchFailed c →
       ∃ b, lookupAgent (start_agent [("w1", wAgent)] "w1"
           { wEnv with osBusy := fun _ => true }).reg "w1" = some b ∧
         b.status = .error ∧ b.port = none ∧ b.pid = none) ∧
    ((start_agent [("w1", wAgent)] "w1"
        { wEnv with osBusy := fun _ => true }).outcome = .portError →
       (start_agent [("w1", wAgent)] "w1"
         { wEnv with osBusy := fun _ => true }).commits.length ≤ 1 ∧
       ∃ b, lookupAgent (start_agent [("w1", wAgent)] "w1"
           { wEnv with osBusy := fun _ => true }).reg "w1" = some b ∧
         b.status ≠ .running ∧ (b = wAgent ∨ b = clearAgent wAgent .error)) :=
  C5_failure_status [("w1", wAgent)] "w1"
    { wEnv with osBusy := fun _ => true } wAgent (by decide)
    (fun hcon => by cases hcon)

end AgentsApp

namespace AgentsApp

/-- C8 counterexample: a stop request on a `created` row answers success
without doing anything, and the row's status remains `created` — it does
not become `stopped` as the claim requires. -/
theorem C8_counterexample :
    stop_agent [("w1", wAgent)] "w1" wEnv =
      ⟨.notRunning, [("w1", wAgent)], [], false⟩ ∧
    wAgent.status = .created := by
  exact ⟨by decide, rfl⟩

/-- C8 amended: a stop request on a row in `stopped` or `created` status
succeeds as an idempotent no-op that sends no termination signal and makes
no commit, leaving the row entirely unchanged — a `stopped` row remains
`stopped` and a `created` row remains `created` (it does not transition to
`stopped`). -/
theorem C8_stop_noop (reg : Registry) (id : String) (env : Env) (a : Agent)
    (hlk : lookupAgent reg id = some a)
    (hst : a.status = .stopped ∨ a.status = .created) :
    stop_agent reg id env = ⟨.notRunning, reg, [], false⟩ := by
  have h1 : ¬(a.status = .running ∧ truthy a.pid = true) := by
    rintro ⟨hr, _⟩
    rcases hst with h | h <;> rw [h] at hr <;> cases hr
  have h2 : ¬(a.status = .running ∧ truthy a.pid = false) := by
    rintro ⟨hr, _⟩
    rcases hst with h | h <;> rw [h] at hr <;> cases hr
  unfold stop_agent
  rw [hlk]
  dsimp only
  rw [if_pos h1, if_neg h2]

/-- Witness for C8 amended: stopping a concrete `stopped` row. -/
theorem C8_stop_noop_witness :
    stop_agent [("w1", { status := .stopped, port := none, pid := none, filePath := "agents/w1.py" })] "w1" wEnv =
      ⟨.notRunning, [("w1", { status := .stopped, port := none, pid := none, filePath := "agents/w1.py" })], [], false⟩ :=
  C8_stop_noop _ "w1" wEnv
    { status := .stopped, port := none, pid := none,
      filePath := "agents/w1.py" }
    (by decide) (Or.inl rfl)

/-- C9 counterexample: in the interleaving where two start requests against
the same `created` worker both read the row before either commits — a legal
schedule, since `start_agent` takes no lock and its commits apply no
compare-and-set precondition — both requests spawn a child: two processes
are launched for one worker id, where the claim requires exactly one. -/
theorem C9_counterexample :
    (raceStart [("w1", wAgent)] "w1" wEnv { wEnv with spawnPid := 101 }).1.spawns +
      (raceStart [("w1", wAgent)] "w1" wEnv { wEnv with spawnPid := 101 }).2.spawns = 2 ∧
    (raceStart [("w1", wAgent)] "w1" wEnv { wEnv with spawnPid := 101 }).1.outcome = .started 6000 100 ∧
    (raceStart [("w1", wAgent)] "w1" wEnv { wEnv with spawnPid := 101 }).2.outcome = .started 6001 101 := by
  refine ⟨by decide, by decide, by decide⟩

/-- C9 amended: the code provides no mutual exclusion for concurrent start
requests — the registry has no compare-and-set update and no ConflictError
exists.  In the interleaving where both requests read the `created` row
before either commits, both requests spawn a child (two processes for one
worker id); only in the serialized schedule, where the second request reads
after the first request's commit, does the second observe the idempotent
already-running answer with no second spawn. -/
theorem C9_concurrent_start (reg : Registry) (id : String) (envA envB : Env)
    (a : Agent) (portA portB : Nat)
    (hlk : lookupAgent reg id = some a)
    (hst : a.status = .created)
    (hfileA : envA.fileExists a.filePath = true)
    (hfileB : envB.fileExists a.filePath = true)
    (heeA : envA.earlyExit = none) (heeB : envB.earlyExit = none)
    (hpidA : envA.spawnPid ≠ 0)
    (hfindA : find_available_port (runningPorts reg) envA.osBusy
      BASE_AGENT_PORT = .ok portA)
    (hfindB : find_available_port
      (runningPorts (startFromRead a reg id envA).reg) envB.osBusy
      BASE_AGENT_PORT = .ok portB)
    (haliveB : envB.alive envA.spawnPid = true) :
    ((raceStart reg id envA envB).1.spawns +
       (raceStart reg id envA envB).2.spawns = 2) ∧
    ((start_agent reg id envA).spawns +
       (start_agent (start_agent reg id envA).reg id envB).spawns = 1) ∧
    (start_agent (start_agent reg id envA).reg id envB).outcome =
      .alreadyRunning (some portA) := by
  have hnot : ¬(a.status = .running ∧ truthy a.pid = true) := by
    rintro ⟨hr, _⟩
    rw [hst] at hr
    cases hr
  have heqB : startFromRead a (startFromRead a reg id envA).reg id envB =
      ⟨.started portB envB.spawnPid,
       setAgent (startFromRead a reg id envA).reg id { a with status := .running, pid := some envB.spawnPid, port := some portB },
       [setAgent (startFromRead a reg id envA).reg id { a with status := .running, pid := some envB.spawnPid, port := some portB }], 1, 1⟩ := by
    rw [startFromRead_not_running a _ id envB hnot]
    exact launchPhase_eq_started _ id a envB portB hfileB hfindB heeB
  have heqA : startFromRead a reg id envA =
      ⟨.started portA envA.spawnPid,
       setAgent reg id { a with status := .running, pid := some envA.spawnPid, port := some portA },
       [setAgent reg id { a with status := .running, pid := some envA.spawnPid, port := some portA }], 1, 1⟩ := by
    rw [startFromRead_not_running a reg id envA hnot]
    exact launchPhase_eq_started reg id a envA portA hfileA hfindA heeA
  refine ⟨?_, ?_, ?_⟩
  · unfold raceStart
    rw [hlk]
    dsimp only
    rw [heqB, heqA]
    rfl
  · rw [start_agent_some reg id envA a hlk, heqA]
    dsimp only
    rw [start_agent_some _ id envB
        { a with status := .running, pid := some envA.spawnPid, port := some portA }
        (lookupAgent_setAgent reg id a _ hlk)]
    unfold startFromRead
    rw [if_pos ⟨rfl, by simp [truthy, hpidA]⟩]
    rw [if_pos (by simpa using haliveB)]
    rfl
  · rw [start_agent_some reg id envA a hlk, heqA]
    dsimp only
    rw [start_agent_some _ id envB
        { a with status := .running, pid := some envA.spawnPid, port := some portA }
        (lookupAgent_setAgent reg id a _ hlk)]
    unfold startFromRead
    rw [if_pos ⟨rfl, by simp [truthy, hpidA]⟩]
    rw [if_pos (by simpa using haliveB)]

/-- Witness for C9 amended: the concrete race on a fresh row — both-reads-
first yields two spawns on ports 6000 and 6001; the serialized schedule
yields one spawn and an idempotent answer. -/
theorem C9_concurrent_start_witness :
    ((raceStart [("w1", wAgent)] "w1" wEnv
        { wEnv with spawnPid := 101, alive := fun _ => true }).1.spawns +
       (raceStart [("w1", wAgent)] "w1" wEnv
        { wEnv with spawnPid := 101, alive := fun _ => true }).2.spawns = 2) ∧
    ((start_agent [("w1", wAgent)] "w1" wEnv).spawns +
       (start_agent (start_agent [("w1", wAgent)] "w1" wEnv).reg "w1"
         { wEnv with spawnPid := 101, alive := fun _ => true }).spawns = 1) ∧
    (start_agent (start_agent [("w1", wAgent)] "w1" wEnv).reg "w1"
        { wEnv with spawnPid := 101, alive := fun _ => true }).outcome =
      .alreadyRunning (some 6000) :=
  C9_concurrent_start [("w1", wAgent)] "w1" wEnv
    { wEnv with spawnPid := 101, alive := fun _ => true }
    wAgent 6000 6001 (by decide) rfl rfl rfl rfl rfl (by decide)
    (by decide) (by decide) rfl

/-- A lookup that finds nothing, after appending a row under the searched
key, finds the appended row. -/
theorem lookupAgent_append_fresh (reg : Registry) (aid : String) (b : Agent)
    (h : lookupAgent reg aid = none) :
    lookupAgent (reg ++ [(aid, b)]) aid = some b := by
  induction reg with
  | nil => simp [lookupAgent]
  | cons e t ih =>
    by_cases hk : e.1 = aid
    · unfold lookupAgent at h
      rw [List.find?_cons_of_pos _ (by simpa using hk)] at h
      cases h
    · unfold lookupAgent at h ⊢
      rw [List.cons_append,
          List.find?_cons_of_neg _ (by simpa using hk)] at *
      exact ih h

/-- C10 counterexample: when the database insert fails and the subsequent
`os.remove` of the generated file itself fails with an `OSError` (which the
code catches and tolerates), create returns the error and persists no row,
but the generated worker file is left behind — it is not removed as the
claim requires. -/
theorem C10_counterexample :
    create_agent [] [] "w1" { wEnv with dbOk := false, removeOk := false } =
      ⟨.dbError, [], ["agents/w1.py"]⟩ := by
  decide

/-- C10 amended: create is all-or-nothing at its interface up to the
best-effort file cleanup: if persisting the new row fails after the worker
file was generated, create returns the database error, leaves no row in
the registry, and removes the generated file whenever the filesystem
removal itself succeeds (when `os.remove` fails, the file remains but the
error is still returned and no row is persisted); and create never reports
success unless the new row is in the registry and the generated file
exists. -/
theorem C10_create_atomicity (reg : Registry) (fs : List String)
    (aid : String) (env : Env)
    (hfresh : agentFilePath aid ∉ fs) :
    ((create_agent reg fs aid env).outcome = .dbError →
       (create_agent reg fs aid env).reg = reg ∧
       (env.removeOk = true →
         agentFilePath aid ∉ (create_agent reg fs aid env).fs)) ∧
    ((create_agent reg fs aid env).outcome = .createdOk →
       lookupAgent (create_agent reg fs aid env).reg aid =
         some (newAgentRecord aid) ∧
       agentFilePath aid ∈ (create_agent reg fs aid env).fs) := by
  unfold create_agent
  split
  · exact ⟨(fun hc => by cases hc), (fun hc => by cases hc)⟩
  · split
    · exact ⟨(fun hc => by cases hc), (fun hc => by cases hc)⟩
    · split
      next hdb =>
        refine ⟨(fun hc => by cases hc), fun _ => ⟨?_, ?_⟩⟩
        · exact lookupAgent_append_fresh reg aid _ hdb.2
        · dsimp only
          rw [if_neg hfresh]
          exact List.mem_append.mpr (Or.inr (List.mem_singleton.mpr rfl))
      next hdb =>
        refine ⟨fun _ => ⟨rfl, fun hrm => ?_⟩, (fun hc => by cases hc)⟩
        dsimp only
        rw [if_neg hfresh, if_pos hrm,
            List.erase_append_right _ hfresh]
        rw [List.mem_append]
        rintro (hin | hin)
        · exact hfresh hin
        · simp at hin

/-- Witness for C10 amended: a failing insert with a working `os.remove`
leaves no row and no file. -/
theorem C10_create_atomicity_witness :
    ((create_agent [] [] "w1" { wEnv with dbOk := false }).outcome = .dbError →
       (create_agent [] [] "w1" { wEnv with dbOk := false }).reg = [] ∧
       (({ wEnv with dbOk := false } : Env).removeOk = true →
         agentFilePath "w1" ∉ (create_agent [] [] "w1" { wEnv with dbOk := false }).fs)) ∧
    ((create_agent [] [] "w1" { wEnv with dbOk := false }).outcome = .createdOk →
       lookupAgent (create_agent [] [] "w1" { wEnv with dbOk := false }).reg "w1" =
         some (newAgentRecord "w1") ∧
       agentFilePath "w1" ∈ (create_agent [] [] "w1" { wEnv with dbOk := false }).fs) :=
  C10_create_atomicity [] [] "w1" { wEnv with dbOk := false } (by decide)

end AgentsApp
